import Mathlib

/-!
Verification of the core decision/calculation engine of `trade.py`
(the price-action / ICT setup checker).

The Python source is shallowly embedded here:
* Python strings are modelled as `String` / `List Char`;
* Python floats are modelled as exact rationals `ℚ`, with `round(x, 5)`
  modelled as round-half-to-even at five decimal places;
* Python `None` becomes `Option`;
* the interactive prompting in `main` is out of scope: the engine is the
  pure computation from the collected inputs (one `TradeSetup` plus the
  parsed trading windows) to the evaluation outputs.
-/

namespace TradeCheck

/-- Trade direction, `direction ∈ {long, short}` in the source. -/
inductive Direction where
  | long
  | short
deriving DecidableEq, Repr

/-- 1-hour structure answer, `structure_1h ∈ {higher, lower, unclear}`. -/
inductive Structure1H where
  | higher
  | lower
  | unclear
deriving DecidableEq, Repr

/-- Market environment, `market_env` in the source. -/
inductive MarketEnv where
  | expansion
  | consolidation
  | reversal
  | retracement
deriving DecidableEq, Repr

/-- A clock time, modelling `datetime.time(hour, minute)`. -/
structure Time where
  hour : Nat
  minute : Nat
deriving DecidableEq, Repr

/-- `datetime.time` ordering: lexicographic on (hour, minute). -/
def Time.le (a b : Time) : Bool :=
  decide (a.hour < b.hour) || (decide (a.hour = b.hour) && decide (a.minute ≤ b.minute))

/-- Python `str.split(sep)` for a single-character separator. -/
def splitOnChar (sep : Char) : List Char → List (List Char)
  | [] => [[]]
  | c :: cs =>
    match splitOnChar sep cs with
    | [] => [[]]
    | h :: t => if c = sep then [] :: h :: t else (c :: h) :: t

/-- Python `str.strip()`: drop whitespace from both ends. -/
def pyStrip (l : List Char) : List Char :=
  ((l.dropWhile Char.isWhitespace).reverse.dropWhile Char.isWhitespace).reverse

/-- Decimal value of a digit list. -/
def digitsToNat (ds : List Char) : Nat :=
  ds.foldl (fun a c => a * 10 + (c.toNat - 48)) 0

/-- Python `int(s)`: surrounding whitespace, an optional sign, then decimal
digits; anything else raises (here: `none`). -/
def pyInt? (l : List Char) : Option Int :=
  match pyStrip l with
  | [] => none
  | '-' :: ds => if ds ≠ [] && ds.all Char.isDigit then some (-(digitsToNat ds : Int)) else none
  | '+' :: ds => if ds ≠ [] && ds.all Char.isDigit then some ((digitsToNat ds : Int)) else none
  | ds => if ds.all Char.isDigit then some ((digitsToNat ds : Int)) else none

/-- `parse_time_str` on a character list: `h, m = map(int, tstr.strip().split(":"))`
then `time(hour=h, minute=m)`; any failure (wrong shape, unparsable int,
hour/minute out of range) yields `none`. -/
def parseTimeChars (l : List Char) : Option Time :=
  match splitOnChar ':' (pyStrip l) with
  | [hs, ms] =>
    match pyInt? hs, pyInt? ms with
    | some h, some m =>
      if 0 ≤ h && h ≤ 23 && 0 ≤ m && m ≤ 59 then some ⟨h.toNat, m.toNat⟩ else none
    | _, _ => none
  | _ => none

/-- `parse_time_str` from the source. -/
def parse_time_str (s : String) : Option Time :=
  parseTimeChars s.data

/-- `time_in_windows` from the source: return true on the first window that
contains `t`; a window with `end < start` wraps midnight. -/
def time_in_windows (t : Time) : List (Time × Time) → Bool
  | [] => false
  | (s, e) :: ws =>
    (if Time.le s e then Time.le s t && Time.le t e else Time.le s t || Time.le t e)
      || time_in_windows t ws

/-- One token of `parse_windows_input`'s loop: tokens without `"-"` are
skipped; `a, b = p.split("-")` raises (the `none` result) when the split does
not have exactly two parts; a side that fails `parse_time_str` drops the
token. -/
def parseParts : List (List Char) → Option (List (Time × Time))
  | [] => some []
  | p :: rest =>
    if p.contains '-' then
      match splitOnChar '-' p with
      | [a, b] =>
        match parseTimeChars a, parseTimeChars b with
        | some ta, some tb => (parseParts rest).map (fun ws => (ta, tb) :: ws)
        | _, _ => parseParts rest
      | _ => none
    else parseParts rest

/-- The comma-separated tokens of a window string, stripped, empties removed. -/
def tokensOf (s : String) : List (List Char) :=
  ((splitOnChar ',' s.data).map pyStrip).filter (fun p => p ≠ [])

/-- `parse_windows_input` from the source; `none` models the uncaught
`ValueError` escaping the function. -/
def parse_windows_input (s : String) : Option (List (Time × Time)) :=
  parseParts (tokensOf s)

/-- Round-half-to-even to an integer (the behaviour of Python `round` on an
exact value). -/
def roundHalfEven (q : ℚ) : ℤ :=
  if q - ⌊q⌋ = 1 / 2 then (if ⌊q⌋ % 2 = 0 then ⌊q⌋ else ⌊q⌋ + 1) else round q

/-- Python `round(x, 5)` on the exact value. -/
def round5 (q : ℚ) : ℚ :=
  (roundHalfEven (q * 100000) : ℚ) / 100000

/-- `suggest_stop_from_atr` from the source. -/
def suggest_stop_from_atr (entry : ℚ) (direction : Direction) (atr : ℚ)
    (atr_multiplier : ℚ := 3 / 2) : ℚ × ℚ :=
  let dist := atr * atr_multiplier
  let stop := if direction = .long then round5 (entry - dist) else round5 (entry + dist)
  (stop, round5 dist)

/-- `r_multiples` from the source: TP prices for the given R multiples. -/
def r_multiples (entry stop : ℚ) (direction : Direction)
    (r_list : List ℚ := [1, 3 / 2, 2, 3]) : List (ℚ × ℚ) :=
  let stop_dist := |entry - stop|
  r_list.map (fun r =>
    (r, if direction = .long then round5 (entry + stop_dist * r) else round5 (entry - stop_dist * r)))

/-! ### The input record collected by `main` before the rules engine runs.

Enumerated fields are validated by `get_input`; `fvg`/`ob`/`liq` answers
`"y"`/`"n"` are booleans (`true` = `"y"`); the numeric fields are the parsed
floats (`none` when left blank or unparseable); `timeSetupStr` is the raw
(stripped) answer to the time-of-setup prompt, kept as text because the
engine branches on the raw string, not only on the parsed time. -/
structure TradeSetup where
  direction : Direction
  structure1h : Structure1H
  marketEnv : MarketEnv
  patterns : List String
  fvg : Bool
  ob : Bool
  liq : Bool
  timeSetupStr : String
  entry : Option ℚ
  stopPrice : Option ℚ
  atr : Option ℚ
  acct : Option ℚ
  riskPct : Option ℚ
deriving DecidableEq, Repr

/-- Reason text appended by rule 1 for an unclear structure. -/
def unclearReason : String :=
  "1H structure unclear — prefer structure in trade direction."

/-- Reason text appended by rule 1 for a long against a lower structure. -/
def mismatchLongReason : String :=
  "1H structure is LOWER while you plan a LONG. That's a structural mismatch."

/-- Reason text appended by rule 1 for a short against a higher structure. -/
def mismatchShortReason : String :=
  "1H structure is HIGHER while you plan a SHORT. That's a structural mismatch."

/-- Reason text appended by rule 2 for a breakout during consolidation. -/
def consolReason : String :=
  "Market consolidation — breakouts can be false; consider waiting for clear momentum."

/-- Reason text appended by rule 3 when only the pattern side confirms. -/
def noIctReason : String :=
  "Pattern present but no ICT-level confirmation."

/-- Reason text appended by rule 3 when only the ICT side confirms. -/
def noPatternReason : String :=
  "ICT level(s) present but no classic pattern; may need further price reaction."

/-- Reason text appended by rule 3 when neither side confirms. -/
def noConfluenceReason : String :=
  "No patterns or ICT levels flagged — consider waiting for clearer confluence."

/-- Reason text appended by rule 4 when the setup time is outside the windows. -/
def outsideReason : String :=
  "Setup time is outside your allowed trading windows — recommended to wait."

/-- Reason appended when the stop is auto-calculated from ATR. -/
def atrStopReason (dist : ℚ) : String :=
  "Stop auto-calculated from ATR (multiplier 1.5): distance " ++ toString dist

/-- Reason appended when entry exists but neither stop nor ATR does. -/
def noStopNoAtrReason : String :=
  "No stop provided and no ATR — cannot auto-calc stop."

/-- Reason appended when no entry price was provided. -/
def noEntryReason : String :=
  "No entry price provided — TP/stop calculations skipped."

/-- `pattern_confirm`: any pattern among engulfing/breakout/pinbar/inside. -/
def pattern_confirm (patterns : List String) : Bool :=
  patterns.any (fun p => p == "engulfing" || p == "breakout" || p == "pinbar" || p == "inside")

/-- `ict_confirm`: fvg or order block or liquidity answered yes. -/
def ict_confirm (fvg ob liq : Bool) : Bool :=
  fvg || ob || liq

/-- Rule 1 of the engine: structure versus direction (score delta, reasons). -/
def rule1 (d : Direction) (st : Structure1H) : Int × List String :=
  match d with
  | .long =>
    match st with
    | .higher => (2, [])
    | .unclear => (0, [unclearReason])
    | .lower => (0, [mismatchLongReason])
  | .short =>
    match st with
    | .lower => (2, [])
    | .unclear => (0, [unclearReason])
    | .higher => (0, [mismatchShortReason])

/-- The condition under which rule 1 records a structural-mismatch reason. -/
def rule1_mismatch (d : Direction) (st : Structure1H) : Bool :=
  (d == .long && st == .lower) || (d == .short && st == .higher)

/-- Rule 2 of the engine: market environment checks. -/
def rule2 (env : MarketEnv) (patterns : List String) (fvg ob liq : Bool) :
    Int × List String :=
  match env with
  | .expansion => (1, [])
  | .consolidation =>
    if patterns.contains "breakout" then (-1, [consolReason]) else (0, [])
  | .reversal =>
    if patterns.contains "engulfing" || ob then (2, []) else (0, [])
  | .retracement =>
    if fvg || ob || liq then (1, []) else (0, [])

/-- Rule 3 of the engine: pattern/ICT confirmation. -/
def rule3 (pc ic : Bool) : Int × List String :=
  if ic && pc then (3, [])
  else if pc then (1, [noIctReason])
  else if ic then (1, [noPatternReason])
  else (0, [noConfluenceReason])

/-- The `time_ok` flag computed by `main` (lines 142-153): defaults to true;
a malformed time string leaves it true; with no windows it stays true. -/
def compute_time_ok (tstr : String) (windows : List (Time × Time)) : Bool :=
  if tstr = "" then true
  else
    match parse_time_str tstr with
    | none => true
    | some t => if windows = [] then true else time_in_windows t windows

/-- Rule 4 of the engine: the time-of-day check, guarded by the raw
truthiness of `trading_windows` and of the time-of-setup string. -/
def rule4 (windows : List (Time × Time)) (tstr : String) (time_ok : Bool) :
    Int × List String :=
  if windows ≠ [] ∧ tstr ≠ "" then
    (if time_ok = false then (0, [outsideReason]) else (1, []))
  else (0, [])

/-! ### The substring test of rule 5

`should_trade` is decided in part by `"mismatch" in " ".join(reasons).lower()`;
substring containment is modelled over `List Char`. -/

/-- `p` is a leading segment of `l`. -/
def isPre (p l : List Char) : Bool :=
  match p, l with
  | [], _ => true
  | _ :: _, [] => false
  | a :: p', b :: l' => a == b && isPre p' l'

/-- Python `pat in s`: `pat` occurs contiguously somewhere in `l`. -/
def containsSub (pat : List Char) : List Char → Bool
  | [] => pat.isEmpty
  | c :: cs => isPre pat (c :: cs) || containsSub pat cs

/-- The scanned keyword of rule 5. -/
def mpat : List Char := "mismatch".data

/-- Whether one reason string mentions the keyword after lowercasing. -/
def strHasMismatch (s : String) : Bool :=
  containsSub mpat (s.data.map Char.toLower)

/-- Python `sep.join(parts)`. -/
def pyJoin (sep : String) : List String → String
  | [] => ""
  | [s] => s
  | s :: rest => s ++ sep ++ pyJoin sep rest

/-- The source test `"mismatch" in " ".join(reasons).lower()`. -/
def mismatch_mentioned (reasons : List String) : Bool :=
  containsSub mpat ((pyJoin " " reasons).data.map Char.toLower)

/-- The reasons accumulated by rules 1-4, in evaluation order — the list rule
5 scans. -/
def preReasons (s : TradeSetup) (windows : List (Time × Time)) : List String :=
  (rule1 s.direction s.structure1h).2 ++
    (rule2 s.marketEnv s.patterns s.fvg s.ob s.liq).2 ++
    (rule3 (pattern_confirm s.patterns) (ict_confirm s.fvg s.ob s.liq)).2 ++
    (rule4 windows s.timeSetupStr (compute_time_ok s.timeSetupStr windows)).2

/-- Rule 5: the final pass/fail flag (source lines 258-262). -/
def should_trade_calc (s : TradeSetup) (windows : List (Time × Time)) : Bool :=
  let pc := pattern_confirm s.patterns
  let ic := ict_confirm s.fvg s.ob s.liq
  !(mismatch_mentioned (preReasons s windows)
      || (s.structure1h == .unclear && !(pc && ic))
      || !(pc || ic))

/-! ### Stop, take-profit and sizing blocks (source lines 264-311) -/

/-- Python truthiness of an optional float: `None` and `0.0` are falsy. -/
def optTruthy : Option ℚ → Bool
  | none => false
  | some v => v != 0

/-- The stop-calculation block: yields (`suggested_stop`, `stop_distance`,
reasons appended by the block). `suggested_stop` starts as `stop_price`. -/
def stop_block (s : TradeSetup) : Option ℚ × Option ℚ × List String :=
  match s.entry with
  | none => (s.stopPrice, none, [noEntryReason])
  | some e =>
    match s.stopPrice with
    | some sp => (some sp, some (round5 |e - sp|), [])
    | none =>
      match s.atr with
      | some a =>
        let sd := suggest_stop_from_atr e s.direction a (3 / 2)
        (some sd.1, some sd.2, [atrStopReason sd.2])
      | none => (none, none, [noStopNoAtrReason])

/-- The take-profit block: guarded by `entry is not None and
(suggested_stop or stop_price)` — Python float truthiness; the used stop
is `suggested_stop` when present, else `stop_price`. -/
def tps_of (entry stopPrice : Option ℚ) (direction : Direction)
    (suggested_stop : Option ℚ) : List (ℚ × ℚ) :=
  match entry with
  | none => []
  | some e =>
    if optTruthy suggested_stop || optTruthy stopPrice then
      match (if suggested_stop.isSome then suggested_stop else stopPrice) with
      | some u => r_multiples e u direction [1, 3 / 2, 2]
      | none => []
    else []

/-- The structured sizing outcomes carried by `pos_hint`: `noHint` is the
Python `None`; the string outcomes become named constructors (`provideBoth`
is "Provide both account size and risk% ...", `zeroStopDistance` is "Stop
distance is zero — cannot compute size.", `noStopAvailable` is "No stop
price available ..."); a computed hint carries the exact risk amount and
exposure quantity. -/
inductive PosHint where
  | noHint
  | noStopAvailable
  | zeroStopDistance
  | provideBoth
  | sized (riskAmount qty : ℚ)
deriving DecidableEq, Repr

/-- The position-sizing block (source lines 289-311). -/
def position_hint (acct riskPct entry stopPrice suggested : Option ℚ) : PosHint :=
  if acct.isSome && riskPct.isSome && entry.isSome
      && (stopPrice.isSome || suggested.isSome) then
    match acct, riskPct, entry with
    | some a, some r, some e =>
      let risk_amount := a * (r / 100)
      match (if suggested.isSome then suggested else stopPrice) with
      | none => .noStopAvailable
      | some u =>
        let stop_dist_price := |e - u|
        if stop_dist_price = 0 then .zeroStopDistance
        else .sized risk_amount (risk_amount / stop_dist_price)
    | _, _, _ => .noHint
  else if acct.isSome || riskPct.isSome then .provideBoth
  else .noHint

/-- The outputs of one evaluation, as consumed by the report. -/
structure EvalResult where
  score : Int
  reasons : List String
  shouldTrade : Bool
  suggestedStop : Option ℚ
  stopDistance : Option ℚ
  tps : List (ℚ × ℚ)
  posHint : PosHint
deriving DecidableEq, Repr

/-- The whole engine: rules 1-5 then the stop/TP/sizing blocks, from one
input record and the parsed trading windows. -/
def evaluate (s : TradeSetup) (trading_windows : List (Time × Time)) : EvalResult :=
  let sb := stop_block s
  { score :=
      (rule1 s.direction s.structure1h).1 +
        (rule2 s.marketEnv s.patterns s.fvg s.ob s.liq).1 +
        (rule3 (pattern_confirm s.patterns) (ict_confirm s.fvg s.ob s.liq)).1 +
        (rule4 trading_windows s.timeSetupStr
          (compute_time_ok s.timeSetupStr trading_windows)).1
    reasons := preReasons s trading_windows ++ sb.2.2
    shouldTrade := should_trade_calc s trading_windows
    suggestedStop := sb.1
    stopDistance := sb.2.1
    tps := tps_of s.entry s.stopPrice s.direction sb.1
    posHint := position_hint s.acct s.riskPct s.entry s.stopPrice sb.1 }

/-- The displayed validity verdict (source line 327):
valid iff `should_trade and score >= 3`. -/
def displayedValid (r : EvalResult) : Bool :=
  r.shouldTrade && decide (3 ≤ r.score)

/-! ### Auxiliary definitions used to state the claims -/

/-- Modelled from the spec's words: a single window matches a time when
`start ≤ end` and `start ≤ t ≤ end` (closed interval), or `start > end`
(wraparound) and `t ≥ start ∨ t ≤ end`. -/
def windowMatchesSpec (t : Time) (p : Time × Time) : Bool :=
  if Time.le p.1 p.2 then Time.le p.1 t && Time.le t p.2
  else Time.le p.1 t || Time.le t p.2

/-- A window-string token on which `parse_windows_input` raises: its
`split("-")` has three or more parts, so `a, b = p.split("-")` fails. -/
def tokenCrashes (p : List Char) : Bool :=
  decide (3 ≤ (splitOnChar '-' p).length)

/-- The window a non-crashing token contributes: `none` when the token has
no `-` or a side fails to parse as a time. -/
def goodWindow? (p : List Char) : Option (Time × Time) :=
  if p.contains '-' then
    match splitOnChar '-' p with
    | [a, b] =>
      match parseTimeChars a, parseTimeChars b with
      | some ta, some tb => some (ta, tb)
      | _, _ => none
    | _ => none
  else none

/-- The end-to-end scenario of C2: long, higher structure, expansion,
breakout pattern, FVG yes, no numeric inputs, no windows, no setup time. -/
def c2setup : TradeSetup :=
  { direction := .long, structure1h := .higher, marketEnv := .expansion,
    patterns := ["breakout"], fvg := true, ob := false, liq := false,
    timeSetupStr := "", entry := none, stopPrice := none, atr := none,
    acct := none, riskPct := none }

/-- The C5 counterexample input: entry present and a user-supplied stop
price of exactly 0 (a falsy float in Python). -/
def c5setup : TradeSetup :=
  { direction := .long, structure1h := .higher, marketEnv := .expansion,
    patterns := ["breakout"], fvg := true, ob := false, liq := false,
    timeSetupStr := "", entry := some 1, stopPrice := some 0, atr := none,
    acct := none, riskPct := none }

/-- The C8 failing input, minus its time string: long, higher, expansion,
breakout, FVG yes (base score 6 with a timing bonus pending). -/
def c8setup : TradeSetup :=
  { direction := .long, structure1h := .higher, marketEnv := .expansion,
    patterns := ["breakout"], fvg := true, ob := false, liq := false,
    timeSetupStr := "", entry := none, stopPrice := none, atr := none,
    acct := none, riskPct := none }

/-- The trading windows configured in the C8 failing input. -/
def c8window : List (Time × Time) := [(⟨9, 0⟩, ⟨10, 0⟩)]

/-- A setup that trades with score 2: breakout during consolidation
(−1) plus aligned structure (+2) plus pattern-only confirmation (+1). -/
def c10setup : TradeSetup :=
  { direction := .long, structure1h := .higher, marketEnv := .consolidation,
    patterns := ["breakout"], fvg := false, ob := false, liq := false,
    timeSetupStr := "", entry := none, stopPrice := none, atr := none,
    acct := none, riskPct := none }

/-- A second setup agreeing with `c10setup` on direction, structure,
patterns and the ICT flags but differing in environment, time and
numeric fields. -/
def c10other : TradeSetup :=
  { c10setup with
    marketEnv := .expansion, timeSetupStr := "10:30",
    entry := some 1, stopPrice := some (1 / 2), acct := some 500,
    riskPct := some 2 }

/-! ### Lemmas about the substring scan -/

theorem containsSub_nil_pat (l : List Char) : containsSub [] l = true := by
  induction l with
  | nil => rfl
  | cons c cs ih => simp [containsSub, isPre]

theorem isPre_append {p a : List Char} (b : List Char) (h : isPre p a = true) :
    isPre p (a ++ b) = true := by
  induction p generalizing a with
  | nil => simp [isPre]
  | cons x p' ih =>
    cases a with
    | nil => simp [isPre] at h
    | cons y a' =>
      simp only [isPre, Bool.and_eq_true, beq_iff_eq] at h
      simp only [List.cons_append, isPre, Bool.and_eq_true, beq_iff_eq]
      exact ⟨h.1, ih h.2⟩

theorem isPre_sep (p : List Char) :
    ∀ a b : List Char, ' ' ∉ p → isPre p (a ++ ' ' :: b) = isPre p a := by
  induction p with
  | nil => intro a b _; simp [isPre]
  | cons x p' ih =>
    intro a b hp
    have hx : ¬(x = ' ') := fun h => hp (h ▸ List.mem_cons_self x p')
    have hp' : ' ' ∉ p' := fun h => hp (List.mem_cons_of_mem x h)
    cases a with
    | nil =>
      simp only [List.nil_append, isPre, beq_iff_eq]
      simp [hx]
    | cons y a' =>
      simp only [List.cons_append, isPre]
      show (x == y && isPre p' (a' ++ ' ' :: b)) = (x == y && isPre p' a')
      rw [ih a' b hp']

theorem containsSub_append_left (p a b : List Char) (h : containsSub p a = true) :
    containsSub p (a ++ b) = true := by
  induction a with
  | nil =>
    have hp : p = [] := by
      cases p with
      | nil => rfl
      | cons x p' => simp [containsSub] at h
    subst hp; exact containsSub_nil_pat b
  | cons x a' ih =>
    simp only [containsSub, Bool.or_eq_true] at h
    rcases h with h | h
    · simp only [List.cons_append, containsSub, Bool.or_eq_true]
      exact Or.inl (show isPre p ((x :: a') ++ b) = true from isPre_append b h)
    · simp only [List.cons_append, containsSub, Bool.or_eq_true]
      exact Or.inr (ih h)

theorem containsSub_append_right (p a b : List Char) (h : containsSub p b = true) :
    containsSub p (a ++ b) = true := by
  induction a with
  | nil => exact h
  | cons x a' ih =>
    simp only [List.cons_append, containsSub, Bool.or_eq_true]
    exact Or.inr ih

theorem containsSub_sep (p : List Char) (hp : ' ' ∉ p) :
    ∀ a b : List Char, containsSub p (a ++ ' ' :: b) = (containsSub p a || containsSub p b) := by
  intro a b
  induction a with
  | nil =>
    cases p with
    | nil => simp [containsSub_nil_pat]
    | cons x p' =>
      have hx : ¬(x = ' ') := fun h => hp (h ▸ List.mem_cons_self x p')
      simp only [List.nil_append, containsSub, isPre, beq_iff_eq]
      simp [hx, List.isEmpty]
  | cons y a' ih =>
    simp only [List.cons_append, containsSub]
    show (isPre p ((y :: a') ++ ' ' :: b) || containsSub p (a' ++ ' ' :: b))
      = (isPre p (y :: a') || containsSub p a' || containsSub p b)
    rw [isPre_sep p (y :: a') b hp, ih]
    simp [Bool.or_assoc]

theorem strData_append (a b : String) : (a ++ b).data = a.data ++ b.data := by
  cases a; cases b; rfl

theorem mismatch_mentioned_eq_any (rs : List String) :
    mismatch_mentioned rs = rs.any strHasMismatch := by
  induction rs with
  | nil => decide
  | cons s rest ih =>
    cases rest with
    | nil =>
      simp [mismatch_mentioned, pyJoin, strHasMismatch]
    | cons s2 rest2 =>
      have hp : ' ' ∉ mpat := by decide
      have hsp : (" " : String).data = [' '] := rfl
      have hlow : Char.toLower ' ' = ' ' := rfl
      show containsSub mpat
          (((s ++ " " ++ pyJoin " " (s2 :: rest2))).data.map Char.toLower) = _
      rw [strData_append, strData_append, hsp]
      rw [List.map_append, List.map_append]
      simp only [List.map_cons, List.map_nil, hlow, List.append_assoc,
        List.singleton_append]
      rw [containsSub_sep mpat hp]
      rw [show containsSub mpat ((pyJoin " " (s2 :: rest2)).data.map Char.toLower)
            = mismatch_mentioned (s2 :: rest2) from rfl, ih]
      simp [strHasMismatch]

/-! ### The characterization of rule 5 -/

theorem any_rule1 (d : Direction) (st : Structure1H) :
    ((rule1 d st).2).any strHasMismatch = rule1_mismatch d st := by
  cases d <;> cases st <;> decide

theorem any_rule2 (env : MarketEnv) (patterns : List String) (f o l : Bool) :
    ((rule2 env patterns f o l).2).any strHasMismatch = false := by
  cases env <;> simp only [rule2] <;> (try split) <;> decide

theorem any_rule3 (pc ic : Bool) :
    ((rule3 pc ic).2).any strHasMismatch = false := by
  cases pc <;> cases ic <;> decide

theorem any_rule4 (w : List (Time × Time)) (tstr : String) (tok : Bool) :
    ((rule4 w tstr tok).2).any strHasMismatch = false := by
  unfold rule4
  split <;> (try split) <;> decide

theorem mismatch_pre (s : TradeSetup) (w : List (Time × Time)) :
    mismatch_mentioned (preReasons s w) = rule1_mismatch s.direction s.structure1h := by
  rw [mismatch_mentioned_eq_any]
  simp [preReasons, List.any_append, any_rule1, any_rule2, any_rule3, any_rule4]

theorem shouldTrade_char (s : TradeSetup) (w : List (Time × Time)) :
    (evaluate s w).shouldTrade
      = !(rule1_mismatch s.direction s.structure1h
          || (s.structure1h == .unclear
              && !(pattern_confirm s.patterns && ict_confirm s.fvg s.ob s.liq))
          || !(pattern_confirm s.patterns || ict_confirm s.fvg s.ob s.liq)) := by
  show should_trade_calc s w = _
  simp only [should_trade_calc]
  rw [mismatch_pre]

/-! ### Lemmas about window parsing -/

theorem splitOnChar_ne_nil (c : Char) : ∀ l : List Char, splitOnChar c l ≠ [] := by
  intro l
  induction l with
  | nil => simp [splitOnChar]
  | cons x xs ih =>
    rw [splitOnChar]
    rcases hs : splitOnChar c xs with _ | ⟨h, t⟩
    · simp
    · dsimp only
      split <;> simp

theorem splitOnChar_not_contains (c : Char) :
    ∀ l : List Char, l.contains c = false → splitOnChar c l = [l] := by
  intro l
  induction l with
  | nil => intro _; rfl
  | cons x xs ih =>
    intro h
    simp only [List.contains_cons, Bool.or_eq_false_iff, beq_eq_false_iff_ne] at h
    rw [splitOnChar, ih h.2]
    simp [Ne.symm h.1]

theorem splitOnChar_contains_le (c : Char) :
    ∀ l : List Char, l.contains c = true → 2 ≤ (splitOnChar c l).length := by
  intro l
  induction l with
  | nil => intro h; simp [List.contains] at h
  | cons x xs ih =>
    intro h
    rw [splitOnChar]
    rcases hs : splitOnChar c xs with _ | ⟨hd, t⟩
    · exact absurd hs (splitOnChar_ne_nil c xs)
    · dsimp only
      by_cases hx : x = c
      · simp [hx]
      · simp only [List.contains_cons, Bool.or_eq_true, beq_iff_eq] at h
        rcases h with h | h
        · exact absurd h.symm hx
        · have h2 := ih h
          rw [hs] at h2
          rw [if_neg hx]
          simp only [List.length_cons] at h2 ⊢
          omega

theorem parseParts_eq (ps : List (List Char)) :
    parseParts ps =
      if ps.any tokenCrashes then none else some (ps.filterMap goodWindow?) := by
  induction ps with
  | nil => rfl
  | cons p rest ih =>
    rw [parseParts, List.any_cons, List.filterMap_cons]
    by_cases hc : p.contains '-' = true
    · rw [if_pos hc]
      rcases hsp : splitOnChar '-' p with _ | ⟨a, _ | ⟨b, _ | ⟨c3, t3⟩⟩⟩
      · exact absurd hsp (splitOnChar_ne_nil '-' p)
      · have hle := splitOnChar_contains_le '-' p hc
        rw [hsp] at hle
        simp at hle
      · -- exactly two parts: no crash for this token
        have hnc : tokenCrashes p = false := by
          simp [tokenCrashes, hsp]
        rw [hnc]
        dsimp only
        rcases hta : parseTimeChars a with _ | ta
        · have hgw : goodWindow? p = none := by
            unfold goodWindow?
            rw [if_pos hc, hsp]
            dsimp only
            rw [hta]
          dsimp only
          rw [ih, hgw]
          dsimp only
          simp
        · rcases htb : parseTimeChars b with _ | tb
          · have hgw : goodWindow? p = none := by
              unfold goodWindow?
              rw [if_pos hc, hsp]
              dsimp only
              rw [hta, htb]
            dsimp only
            rw [ih, hgw]
            dsimp only
            simp
          · have hgw : goodWindow? p = some (ta, tb) := by
              unfold goodWindow?
              rw [if_pos hc, hsp]
              dsimp only
              rw [hta, htb]
            dsimp only
            rw [ih, hgw]
            dsimp only
            by_cases hr : rest.any tokenCrashes = true
            · simp [hr]
            · simp only [Bool.not_eq_true] at hr
              simp [hr]
      · -- three or more parts: the unpacking raises
        have hcr : tokenCrashes p = true := by
          simp only [tokenCrashes, hsp, List.length_cons, decide_eq_true_eq]
          omega
        rw [hcr]
        dsimp only
        simp
    · have hc' : p.contains '-' = false := by simpa using hc
      have hnc : tokenCrashes p = false := by
        have h2 := splitOnChar_not_contains '-' p hc'
        simp [tokenCrashes, h2]
      have hgw : goodWindow? p = none := by
        unfold goodWindow?
        exact if_neg hc
      rw [if_neg hc, ih, hnc, hgw]
      dsimp only
      simp

/-! ### Evaluation helpers for the 5-decimal rounding -/

theorem roundHalfEven_not_tie (q : ℚ) (h : q - ⌊q⌋ ≠ 1 / 2) :
    roundHalfEven q = round q := if_neg h

theorem roundHalfEven_intCast (n : ℤ) : roundHalfEven (n : ℚ) = n := by
  rw [roundHalfEven]
  rw [Int.floor_intCast]
  simp [round_intCast]

theorem round5_int (q : ℚ) (n : ℤ) (h : q * 100000 = (n : ℚ)) :
    round5 q = (n : ℚ) / 100000 := by
  rw [round5, h, roundHalfEven_intCast]

/-! ### The claims -/

/-- C1: for every TradeSetup (and any configured windows), `shouldTrade` is
false if and only if rule 1 recorded a structural-mismatch reason, or the
structure is unclear and not both `patternConfirm` and `ictConfirm` hold, or
neither confirmation holds; in every other case it is true. The second
conjunct certifies that `rule1_mismatch` says exactly "rule 1 recorded a
structural-mismatch reason". -/
theorem claim1_shouldTrade_false_iff (s : TradeSetup) (w : List (Time × Time)) :
    ((evaluate s w).shouldTrade = false ↔
      (rule1_mismatch s.direction s.structure1h = true ∨
        (s.structure1h = Structure1H.unclear ∧
          ¬(pattern_confirm s.patterns = true ∧ ict_confirm s.fvg s.ob s.liq = true)) ∨
        ¬(pattern_confirm s.patterns = true ∨ ict_confirm s.fvg s.ob s.liq = true))) ∧
    (∀ (d : Direction) (st : Structure1H),
      rule1_mismatch d st = true ↔
        (mismatchLongReason ∈ (rule1 d st).2 ∨ mismatchShortReason ∈ (rule1 d st).2)) := by
  constructor
  · rw [shouldTrade_char]
    cases h1 : rule1_mismatch s.direction s.structure1h <;>
      cases h2 : pattern_confirm s.patterns <;>
        cases h3 : ict_confirm s.fvg s.ob s.liq <;>
          by_cases h4 : s.structure1h = Structure1H.unclear <;>
            simp [h4, beq_iff_eq]
  · intro d st
    cases d <;> cases st <;> decide

/-- C2: the scenario long / higher / expansion / patterns = breakout /
fvg yes, ob no, liq no, no windows, no setup time yields score 6
(2 from rule 1, 1 from rule 2, 3 from rule 3), shouldTrade = true, and a
displayed validity of "valid" (shouldTrade and score ≥ 3). -/
theorem claim2_end_to_end :
    (rule1 c2setup.direction c2setup.structure1h).1 = 2 ∧
    (rule2 c2setup.marketEnv c2setup.patterns c2setup.fvg c2setup.ob c2setup.liq).1 = 1 ∧
    (rule3 (pattern_confirm c2setup.patterns)
      (ict_confirm c2setup.fvg c2setup.ob c2setup.liq)).1 = 3 ∧
    (evaluate c2setup []).score = 6 ∧
    (evaluate c2setup []).shouldTrade = true ∧
    displayedValid (evaluate c2setup []) = true := by
  decide

/-- C3: `time_in_windows` returns true exactly when some window matches,
where a window with start ≤ end matches on the closed interval and a
window with start > end matches by wraparound; with the claim's concrete
instances: (09:30,11:30) contains 09:30 and 11:30 but not 11:31, and
(22:00,02:00) contains 23:30 and 01:00 but not 12:00. -/
theorem claim3_time_in_windows :
    (∀ (t : Time) (ws : List (Time × Time)),
      time_in_windows t ws = true ↔ ∃ p ∈ ws, windowMatchesSpec t p = true) ∧
    time_in_windows ⟨9, 30⟩ [(⟨9, 30⟩, ⟨11, 30⟩)] = true ∧
    time_in_windows ⟨11, 30⟩ [(⟨9, 30⟩, ⟨11, 30⟩)] = true ∧
    time_in_windows ⟨11, 31⟩ [(⟨9, 30⟩, ⟨11, 30⟩)] = false ∧
    time_in_windows ⟨23, 30⟩ [(⟨22, 0⟩, ⟨2, 0⟩)] = true ∧
    time_in_windows ⟨1, 0⟩ [(⟨22, 0⟩, ⟨2, 0⟩)] = true ∧
    time_in_windows ⟨12, 0⟩ [(⟨22, 0⟩, ⟨2, 0⟩)] = false := by
  refine ⟨?_, by decide, by decide, by decide, by decide, by decide, by decide⟩
  intro t ws
  induction ws with
  | nil => simp [time_in_windows]
  | cons hd tl ih =>
    obtain ⟨hs, he⟩ := hd
    rw [time_in_windows, Bool.or_eq_true, ih]
    show windowMatchesSpec t (hs, he) = true ∨ _ ↔ _
    constructor
    · rintro (h | ⟨p, hp, hw⟩)
      · exact ⟨(hs, he), List.mem_cons_self _ _, h⟩
      · exact ⟨p, List.mem_cons_of_mem _ hp, hw⟩
    · rintro ⟨p, hp, hw⟩
      rcases List.mem_cons.mp hp with rfl | hp'
      · exact Or.inl hw
      · exact Or.inr ⟨p, hp', hw⟩

/-- C4 (amended): parsing a window string succeeds with exactly the windows
of the well-formed `HH:MM-HH:MM` tokens — tokens with no `-` or an
unparseable side are silently dropped — unless some token contains two or
more `-` characters, in which case the whole parse raises (returns none)
instead of dropping that token. -/
theorem claim4_window_parsing (s : String) :
    parse_windows_input s =
      (if (tokensOf s).any tokenCrashes then none
       else some ((tokensOf s).filterMap goodWindow?)) :=
  parseParts_eq (tokensOf s)

/-- C4 counterexample: a malformed token with two `-` aborts the whole
parse (the claim says it would be dropped and the rest kept), even though
the same well-formed first token alone parses fine. -/
theorem claim4_counterexample :
    parse_windows_input "09:30-11:30,08:00-09:00-10:00" = none ∧
    parse_windows_input "09:30-11:30" = some [(⟨9, 30⟩, ⟨11, 30⟩)] := by
  decide

/-- C5 (amended): `takeProfits` is non-empty iff an entry exists and the
Python-truthiness guard passes: the resolved stop or the provided stop is
present *and nonzero* (a stop of exactly 0.0 is falsy, so both may exist
and `takeProfits` still be empty). -/
theorem claim5_takeprofits_iff (s : TradeSetup) (w : List (Time × Time)) :
    (evaluate s w).tps ≠ [] ↔
      (s.entry.isSome = true ∧
        (optTruthy (evaluate s w).suggestedStop = true ∨
          optTruthy s.stopPrice = true)) := by
  have htps : (evaluate s w).tps
      = tps_of s.entry s.stopPrice s.direction (stop_block s).1 := rfl
  have hsug : (evaluate s w).suggestedStop = (stop_block s).1 := rfl
  rw [htps, hsug]
  rcases he : s.entry with _ | e <;>
    rcases h1 : (stop_block s).1 with _ | u <;>
      rcases h2 : s.stopPrice with _ | v <;>
        simp [tps_of, optTruthy, r_multiples] <;>
          (try split) <;> (try simp_all [r_multiples]) <;> (try tauto)

/-- C5 counterexample: entry = 1 and a provided stop of exactly 0: both an
entry and a resolved stop exist, yet `takeProfits` is empty. -/
theorem claim5_counterexample :
    c5setup.entry = some 1 ∧ (evaluate c5setup []).suggestedStop = some 0 ∧
    (evaluate c5setup []).tps = [] := by
  decide

/-- C6: with account, riskPercent, entry and a resolved stop all present,
the sizer uses riskAmount = account × riskPercent / 100 and yields the
zero-stop-distance outcome when |entry − usedStop| = 0, else the exposure
riskAmount / |entry − usedStop|; with exactly one of account/riskPercent
present it signals the insufficient-inputs outcome; with entry missing it
never produces an exposure. -/
theorem claim6_position_sizing (a r e : ℚ) (sp su : Option ℚ)
    (h : sp.isSome = true ∨ su.isSome = true) :
    (∃ u : ℚ, (if su.isSome then su else sp) = some u ∧
      position_hint (some a) (some r) (some e) sp su =
        (if |e - u| = 0 then PosHint.zeroStopDistance
         else PosHint.sized (a * (r / 100)) ((a * (r / 100)) / |e - u|))) ∧
    (∀ (b : ℚ) (e' sp' su' : Option ℚ),
      position_hint (some b) none e' sp' su' = PosHint.provideBoth ∧
      position_hint none (some b) e' sp' su' = PosHint.provideBoth) ∧
    (∀ (sp' su' : Option ℚ) (q1 q2 : ℚ),
      position_hint (some a) (some r) none sp' su' ≠ PosHint.sized q1 q2) := by
  refine ⟨?_, ?_, ?_⟩
  · rcases su with _ | u
    · rcases sp with _ | v
      · simp at h
      · exact ⟨v, by simp, by simp [position_hint]⟩
    · exact ⟨u, by simp, by simp [position_hint]⟩
  · intro b e' sp' su'
    exact ⟨by simp [position_hint], by simp [position_hint]⟩
  · intro sp' su' q1 q2
    simp [position_hint]

/-- Witness for C6: account 10000, riskPercent 1, entry 1.1000 and stop
1.0950 give riskAmount 100 and exposure 20000. -/
theorem claim6_witness :
    ((some (219 / 200 : ℚ)).isSome = true ∨ (none : Option ℚ).isSome = true) ∧
    position_hint (some 10000) (some 1) (some (11 / 10)) (some (219 / 200)) none
      = PosHint.sized 100 20000 := by
  refine ⟨Or.inl rfl, ?_⟩
  obtain ⟨u, hu, heq⟩ :=
    (claim6_position_sizing 10000 1 (11 / 10) (some (219 / 200)) none (Or.inl rfl)).1
  have hu' : u = 219 / 200 := by
    simpa using hu.symm
  subst hu'
  have h0 : |(11 : ℚ) / 10 - 219 / 200| ≠ 0 := by
    rw [abs_ne_zero]
    norm_num
  rw [heq, if_neg h0]
  have habs : |(11 : ℚ) / 10 - 219 / 200| = 1 / 200 := by
    rw [show (11 : ℚ) / 10 - 219 / 200 = 1 / 200 by norm_num]
    rw [abs_of_pos]
    norm_num
  rw [habs]
  norm_num

/-- C7: with an empty window list the time check never restricts: the
engine's whole result is unchanged by the setup-time text, and the
`time_ok` flag is true for every time input. -/
theorem claim7_empty_windows (s : TradeSetup) (t1 t2 : String) :
    evaluate { s with timeSetupStr := t1 } []
      = evaluate { s with timeSetupStr := t2 } [] ∧
    (∀ tstr : String, compute_time_ok tstr [] = true) := by
  constructor
  · have h4 : ∀ (tstr : String) (tok : Bool), rule4 [] tstr tok = (0, []) := by
      intro tstr tok
      simp [rule4]
    unfold evaluate
    unfold should_trade_calc
    unfold preReasons
    unfold stop_block tps_of position_hint
    dsimp only
    simp only [h4]
  · intro tstr
    unfold compute_time_ok
    by_cases h : tstr = ""
    · rw [if_pos h]
    · rw [if_neg h]
      rcases hp : parse_time_str tstr with _ | t <;> simp

/-- C8 (code bug): with windows 09:00-10:00 configured and the malformed
time text "banana", the engine treats the parse failure as *inside* the
windows: it adds the +1 timing bonus (score 7 versus 6 with no time given)
and records no advisory reason in the result — the claim (and the code's
own printed message "invalid time format; ignoring time check") calls for
no score delta and a recorded advisory. -/
theorem claim8_malformed_time_scores :
    parse_time_str "banana" = none ∧
    (evaluate { c8setup with timeSetupStr := "banana" } c8window).score = 7 ∧
    (evaluate c8setup c8window).score = 6 ∧
    (evaluate { c8setup with timeSetupStr := "banana" } c8window).reasons
      = (evaluate c8setup c8window).reasons := by
  decide

/-- C9 (amended): `r_multiples` returns one pair per multiple in input
order; prices are entry ± stopDistance × multiple *rounded to five decimal
places* (the claim's exact formula holds only up to this rounding); a zero
stop distance yields every price equal to round5(entry), still produced;
and the claim's concrete example holds. -/
theorem claim9_r_multiples (entry stop : ℚ) (d : Direction) (rs : List ℚ) :
    ((r_multiples entry stop d rs).map Prod.fst = rs) ∧
    (∀ pr ∈ r_multiples entry stop d rs,
      pr.2 = (if d = Direction.long then round5 (entry + |entry - stop| * pr.1)
              else round5 (entry - |entry - stop| * pr.1))) ∧
    (stop = entry → ∀ pr ∈ r_multiples entry stop d rs, pr.2 = round5 entry) ∧
    r_multiples (11 / 10) (1095 / 1000) Direction.long [1, 2]
      = [(1, 1105 / 1000), (2, 111 / 100)] := by
  refine ⟨?_, ?_, ?_, ?_⟩
  · simp only [r_multiples, List.map_map]
    exact List.map_id rs
  · intro pr hpr
    simp only [r_multiples, List.mem_map] at hpr
    obtain ⟨r, hr, rfl⟩ := hpr
    rfl
  · intro hse pr hpr
    subst hse
    simp only [r_multiples, List.mem_map] at hpr
    obtain ⟨r, hr, rfl⟩ := hpr
    cases d <;> simp
  · have habs : |(11 : ℚ) / 10 - 1095 / 1000| = 1 / 200 := by
      rw [show (11 : ℚ) / 10 - 1095 / 1000 = 1 / 200 by norm_num]
      rw [abs_of_pos]
      norm_num
    have h1 : round5 ((11 : ℚ) / 10 + |(11 : ℚ) / 10 - 1095 / 1000| * 1) = 1105 / 1000 := by
      rw [habs, round5_int ((11 : ℚ) / 10 + 1 / 200 * 1) 110500 (by norm_num)]
      norm_num
    have h2 : round5 ((11 : ℚ) / 10 + |(11 : ℚ) / 10 - 1095 / 1000| * 2) = 111 / 100 := by
      rw [habs, round5_int ((11 : ℚ) / 10 + 1 / 200 * 2) 111000 (by norm_num)]
      norm_num
    simp only [r_multiples, List.map_cons, List.map_nil, if_true]
    rw [h1, h2]

/-- Witness for C9: ordering preservation instantiated at the claim's
concrete example. -/
theorem claim9_witness :
    (r_multiples (11 / 10) (1095 / 1000) Direction.long [1, 2]).map Prod.fst = [1, 2] :=
  (claim9_r_multiples (11 / 10) (1095 / 1000) Direction.long [1, 2]).1

/-- C9 counterexample: at entry = stop = 1/250000 (0.000004) and multiple
1, the code rounds the price to 0, which differs from the claim's exact
price entry + |entry − stop| × 1 = entry. -/
theorem claim9_counterexample :
    r_multiples (1 / 250000) (1 / 250000) Direction.long [1] = [(1, 0)] ∧
    ((1 : ℚ) / 250000 ≠ 0) := by
  constructor
  · have h0 : round5 ((1 : ℚ) / 250000) = 0 := by
      rw [round5, show ((1 : ℚ) / 250000) * 100000 = 2 / 5 by norm_num,
        roundHalfEven_not_tie (2 / 5 : ℚ) (by norm_num), round_eq]
      norm_num
    have h0inv : round5 ((250000 : ℚ)⁻¹) = 0 := by
      rw [← one_div]
      exact h0
    simp [r_multiples, h0, h0inv]
  · norm_num

/-- C10: `shouldTrade` depends only on direction, structure, patterns and
the three ICT flags — two setups agreeing on those (whatever their
environment, time, windows and numeric fields) get the same decision —
and it can be true with a score below 3 (or negative, were that
reachable): witnessed by a score-2 trade. -/
theorem claim10_noninterference (s1 s2 : TradeSetup) (w1 w2 : List (Time × Time))
    (hd : s1.direction = s2.direction) (hst : s1.structure1h = s2.structure1h)
    (hp : s1.patterns = s2.patterns) (hf : s1.fvg = s2.fvg) (ho : s1.ob = s2.ob)
    (hl : s1.liq = s2.liq) :
    ((evaluate s1 w1).shouldTrade = (evaluate s2 w2).shouldTrade) ∧
    (∃ (s : TradeSetup) (w : List (Time × Time)),
      (evaluate s w).shouldTrade = true ∧
        ((evaluate s w).score < 3 ∨ (evaluate s w).score < 0)) := by
  refine ⟨?_, ⟨c10setup, [], by decide⟩⟩
  rw [shouldTrade_char, shouldTrade_char, hd, hst, hp, hf, ho, hl]

/-- Witness for C10: two concrete setups differing in environment, setup
time, windows, entry, stop, account and risk but agreeing on the six
decision-relevant fields get the same `shouldTrade`. -/
theorem claim10_witness :
    ((evaluate c10setup []).shouldTrade
      = (evaluate c10other [(⟨9, 0⟩, ⟨17, 0⟩)]).shouldTrade) ∧
    (∃ (s : TradeSetup) (w : List (Time × Time)),
      (evaluate s w).shouldTrade = true ∧
        ((evaluate s w).score < 3 ∨ (evaluate s w).score < 0)) :=
  claim10_noninterference c10setup c10other [] [(⟨9, 0⟩, ⟨17, 0⟩)]
    rfl rfl rfl rfl rfl rfl

end TradeCheck
